import Mathlib

set_option linter.unusedVariables false

/-!
Verification development for the charge-point capture script
`src/script/rete_ricarica_veicoli_elettrici.js`.

The script launches a browser, navigates to a fixed page, captures the bodies
of network responses whose request URL contains a fixed endpoint substring,
waits for network traffic to become idle, and writes the captured bodies to
timestamped files.  The definitions below are a shallow embedding of that
script: times are natural numbers (milliseconds), the event loop is made
explicit, fallible I/O is modelled with `Except`/oracle flags, and the
filesystem is a small record of directory state.
-/

/-- The `CONFIG` object of the script (the output directory path is a runtime
filesystem path and is kept abstract in the rest of the model). -/
structure Config where
  targetUrl : String
  apiEndpoint : String
  networkIdleTimeout : Nat
deriving DecidableEq

def CONFIG : Config :=
  { targetUrl := "https://www.piattaformaunicanazionale.it/idr"
    apiEndpoint := "https://api.pun.piattaformaunicanazionale.it/v1/chargepoints/public/map/search"
    networkIdleTimeout := 30000 }

/-! ### Network idle detector (`waitForNetworkIdle`, source lines 128-154)

`checkIdle` is the timer callback; `idleLoop` is an explicit single-threaded
event-loop executor that interleaves the pending `setTimeout` timer with a
given list of `request`-event times, exactly as the JS runtime would.  A
`setTimeout(checkIdle, timeout)` issued at time `t` fires at `t + timeout`;
`clearTimeout` plus `setTimeout` in `onRequest` replaces the single pending
timer.  The executor returns the list of times at which `resolve()` is
called (the promise itself resolves at the first such time). -/

/-- Outcome of one run of the `checkIdle` callback body. -/
inductive CheckAction where
  | signalIdle : CheckAction
  | rearm : Nat → CheckAction
deriving DecidableEq

/-- The body of `checkIdle`: if `Date.now() - lastRequestTime >= timeout`
then `resolve()`, else clear the (already fired) timer and re-arm a new one
with delay `timeout`. -/
def checkIdle (timeout now lastRequestTime : Nat) : CheckAction :=
  if timeout ≤ now - lastRequestTime then CheckAction.signalIdle
  else CheckAction.rearm timeout

/-- Event-loop executor for `waitForNetworkIdle`.  Arguments: a step budget
(`fuel`, bounding the number of event-loop turns; the wrapper supplies a
provably sufficient budget), `lastRequestTime`, the fire time of the single
pending timer (if any), and the times of the remaining `request` events in
arrival order.  A timer due no later than the next request fires first.
`onRequest` (source lines 133-137) sets `lastRequestTime` to the current
time, clears the pending timer and arms a new one `timeout` later. -/
def idleLoop (timeout : Nat) : Nat → Nat → Option Nat → List Nat → List Nat
  | 0, _, _, _ => []
  | _ + 1, lastRequestTime, none, [] => []
  | fuel + 1, lastRequestTime, some fireAt, [] =>
    match checkIdle timeout fireAt lastRequestTime with
    | CheckAction.signalIdle => [fireAt]
    | CheckAction.rearm d => idleLoop timeout fuel lastRequestTime (some (fireAt + d)) []
  | fuel + 1, lastRequestTime, some fireAt, r :: rs =>
    if fireAt ≤ r then
      match checkIdle timeout fireAt lastRequestTime with
      | CheckAction.signalIdle => fireAt :: idleLoop timeout fuel lastRequestTime none (r :: rs)
      | CheckAction.rearm d => idleLoop timeout fuel lastRequestTime (some (fireAt + d)) (r :: rs)
    else
      idleLoop timeout fuel r (some (r + timeout)) rs
  | fuel + 1, lastRequestTime, none, r :: rs =>
    idleLoop timeout fuel r (some (r + timeout)) rs

/-- `waitForNetworkIdle(page, timeout)` started at time `t0`, observing
`request` events at the times in `reqs`: `lastRequestTime` is initialised to
`Date.now()` and the initial `setTimeout(checkIdle, timeout)` is armed at
`t0`.  Result: the times at which `resolve()` is called. -/
def waitForNetworkIdle (timeout t0 : Nat) (reqs : List Nat) : List Nat :=
  idleLoop timeout (2 * reqs.length + 2) t0 (some (t0 + timeout)) reqs

/-- Request-time streams whose first event arrives within `timeout` of the
given reference time and whose consecutive events are separated by strictly
less than `timeout`. -/
def gapsOK (timeout : Nat) : Nat → List Nat → Bool
  | _, [] => true
  | prev, r :: rs => decide (prev ≤ r) && decide (r < prev + timeout) && gapsOK timeout r rs

/-! ### Idle detector, timer-store view (for the single-pending-check invariant)

Here the event loop's timer store is kept explicit as a list of
`(handle, fireAt)` pairs, so "at most one pending check" is a genuine
property of the code rather than of the model's shape.  `idleTimeout` is the
variable of the source holding the most recently returned handle. -/

structure DetectorState where
  lastRequestTime : Nat
  idleTimeout : Nat
  pending : List (Nat × Nat)
  nextId : Nat
  resolvedAt : Option Nat
deriving DecidableEq

/-- `clearTimeout(h)`: remove the timer with handle `h` (a no-op if no such
timer is pending, e.g. because it already fired). -/
def clearTimeoutFn (pending : List (Nat × Nat)) (h : Nat) : List (Nat × Nat) :=
  pending.filter (fun t => t.1 ≠ h)

/-- `setTimeout(checkIdle, delay)` issued at time `now`: arm a fresh timer
and return its handle. -/
def setTimeoutFn (s : DetectorState) (delay now : Nat) : DetectorState × Nat :=
  ({ s with pending := s.pending ++ [(s.nextId, now + delay)], nextId := s.nextId + 1 }, s.nextId)

/-- Detector start (source lines 130-131 and 153): record the current time
and arm the initial check. -/
def startDetector (timeout t0 : Nat) : DetectorState :=
  let s0 : DetectorState :=
    { lastRequestTime := t0, idleTimeout := 0, pending := [], nextId := 0, resolvedAt := none }
  let p := setTimeoutFn s0 timeout t0
  { p.1 with idleTimeout := p.2 }

/-- The `onRequest` handler at time `now` (source lines 133-137). -/
def onRequestStep (timeout now : Nat) (s : DetectorState) : DetectorState :=
  let s1 := { s with
    lastRequestTime := now
    pending := clearTimeoutFn s.pending s.idleTimeout }
  let p := setTimeoutFn s1 timeout now
  { p.1 with idleTimeout := p.2 }

/-- A pending timer with handle `h` fires at time `now`: the event loop pops
it and runs `checkIdle` (source lines 139-147).  `resolve()` on an already
resolved promise keeps the first resolution time. -/
def fireStep (timeout h now : Nat) (s : DetectorState) : DetectorState :=
  let s1 := { s with pending := clearTimeoutFn s.pending h }
  match checkIdle timeout now s.lastRequestTime with
  | CheckAction.signalIdle =>
    { s1 with resolvedAt := match s1.resolvedAt with
        | some t => some t
        | none => some now }
  | CheckAction.rearm d =>
    let s2 := { s1 with pending := clearTimeoutFn s1.pending s1.idleTimeout }
    let p := setTimeoutFn s2 d now
    { p.1 with idleTimeout := p.2 }

/-- One event-loop turn of the detector: either a `request` event arrives
(at an arbitrary time) or a pending timer fires. -/
inductive DetStep (timeout : Nat) : DetectorState → DetectorState → Prop where
  | request (now : Nat) (s : DetectorState) : DetStep timeout s (onRequestStep timeout now s)
  | fire (h now : Nat) (s : DetectorState) (hmem : (h, now) ∈ s.pending) :
      DetStep timeout s (fireStep timeout h now s)

/-- Detector states reachable from `startDetector` by any interleaving of
requests and timer fires. -/
def DetReachable (timeout t0 : Nat) (s : DetectorState) : Prop :=
  Relation.ReflTransGen (DetStep timeout) (startDetector timeout t0) s

/-- The timer-store invariant: either no check is pending, or exactly the
one whose handle is held in the `idleTimeout` variable. -/
def TimerInv (s : DetectorState) : Prop :=
  s.pending = [] ∨ ∃ t, s.pending = [(s.idleTimeout, t)]

/-! ### Response observer (source lines 42-57)

A network response is modelled by the URL of its originating request and the
result of `response.text()`: `some body` on a successful read, `none` when
the read throws (the handler then only logs and skips the response). -/

structure ResponseEvent where
  url : String
  body : Option String
deriving DecidableEq

/-- Character-list core of JS `String.prototype.includes`. -/
def prefixAt : List Char → List Char → Bool
  | [], _ => true
  | _ :: _, [] => false
  | p :: ps, c :: cs => p == c && prefixAt ps cs

/-- Substring search on character lists. -/
def includesList (pat : List Char) : List Char → Bool
  | [] => pat.isEmpty
  | c :: cs => prefixAt pat (c :: cs) || includesList pat cs

/-- JS `s.includes(pat)`: does `s` contain `pat` as a contiguous substring? -/
def includes (s pat : String) : Bool :=
  includesList pat.data s.data

/-- JS `String.prototype.trim`: strip leading and trailing whitespace. -/
def jsTrim (s : String) : String :=
  (((s.data.dropWhile Char.isWhitespace).reverse.dropWhile Char.isWhitespace).reverse).asString

/-- The `page.on('response', ...)` handler: if the request URL contains the
endpoint substring, read the body; if the read succeeds and the trimmed body
is truthy (non-empty), push the raw body onto `responses`.  Read failures
and non-matching or blank responses leave `responses` unchanged. -/
def onResponse (apiEndpoint : String) (responses : List String) (ev : ResponseEvent) : List String :=
  if includes ev.url apiEndpoint then
    match ev.body with
    | some responseText =>
      if jsTrim responseText ≠ "" then responses ++ [responseText] else responses
    | none => responses
  else responses

/-! ### Output directory (`prepareOutputDirectory`, source lines 86-100)

The output directory is a flat listing of entries; `fs.unlinkSync` succeeds
on plain files and throws (`EISDIR`/`EPERM`) on an entry that is itself a
directory.  Write failures for `saveResponses` are driven by an oracle. -/

structure FileEntry where
  name : String
  isDir : Bool
deriving DecidableEq

structure Dir where
  present : Bool
  entries : List FileEntry
deriving DecidableEq

/-- The deletion loop of `prepareOutputDirectory`: unlink each listed entry
in order, throwing at the first entry that is not a plain file. -/
def deleteEntries : List FileEntry → Except FileEntry Unit
  | [] => Except.ok ()
  | e :: es => if e.isDir then Except.error e else deleteEntries es

/-- `prepareOutputDirectory`: if the directory exists, delete every entry in
it; if it does not exist, leave it alone (creation is deferred to
`saveResponses`). -/
def prepareOutputDirectory (d : Dir) : Except FileEntry Dir :=
  if d.present then
    match deleteEntries d.entries with
    | Except.ok _ => Except.ok { present := true, entries := [] }
    | Except.error e => Except.error e
  else Except.ok d

/-- Decimal rendering of a nonnegative JS number, as produced by the
template literal `${i}` for the loop index and timestamp. -/
def decRepr (n : Nat) : String :=
  if n = 0 then ("0" : String) else (((Nat.digits 10 n).map Nat.digitChar).reverse).asString

/-- The file name `response_${i}_${timestamp}.json`. -/
def fileName (i timestamp : Nat) : String :=
  "response_" ++ decRepr i ++ "_" ++ decRepr timestamp ++ ".json"

/-- The write loop of `saveResponses`, from loop index `i`: write each
payload verbatim to its file; `writeFail` says which `fs.writeFileSync`
calls throw (disk failure oracle).  Returns the files actually written, as
(name, contents) pairs in write order, and the error (the failing file's
name) if the loop aborted. -/
def writeFiles (writeFail : Nat → Bool) (timestamp : Nat) :
    Nat → List String → List (String × String) × Option String
  | _, [] => ([], none)
  | i, r :: rs =>
    if writeFail i then ([], some (fileName i timestamp))
    else
      let out := writeFiles writeFail timestamp (i + 1) rs
      ((fileName i timestamp, r) :: out.1, out.2)

/-- `fs.mkdirSync(dir, { recursive: true })` guarded by `existsSync`. -/
def ensureDir (d : Dir) : Dir :=
  if d.present then d else { present := true, entries := d.entries }

/-- `saveResponses`: ensure the directory exists, take one session timestamp
and run the write loop from index 0. -/
def saveResponses (d : Dir) (writeFail : Nat → Bool) (timestamp : Nat) (responses : List String) :
    Dir × (List (String × String) × Option String) :=
  (ensureDir d, writeFiles writeFail timestamp 0 responses)

/-! ### The session (`main`, lines 21-81, and the runner, lines 157-160)

`main`'s `try` block runs launch, `newPage`, `createCDPSession`,
`prepareOutputDirectory`, listener registration, `goto`,
`waitForNetworkIdle` and `saveResponses` in order; its `catch` logs the
error (and swallows it); its `finally` closes the browser whenever one was
launched.  Only an error escaping `main` (a `browser.close()` rejection)
reaches `main().catch`, which logs it and calls `process.exit(1)`; otherwise
the process terminates normally with exit code 0. -/

/-- Observable events of one run. -/
inductive Ev where
  | launched
  | pageCreated
  | cdpEnabled
  | prepared
  | navigated
  | saved
  | errorLogged
  | closeInvoked
  | unhandledLogged
deriving DecidableEq

/-- Errors arising inside the session. -/
inductive SErr where
  | launch
  | newPage
  | cdp
  | prepare (e : FileEntry)
  | goto
  | save (file : String)
  | close
deriving DecidableEq

/-- Environment of one run: which external operations succeed, the state of
the output directory, the response events observed after navigation, the
write-failure oracle and the session timestamp. -/
structure Env where
  launchOk : Bool
  newPageOk : Bool
  cdpOk : Bool
  dir : Dir
  events : List ResponseEvent
  gotoOk : Bool
  writeFail : Nat → Bool
  ts : Nat
  closeOk : Bool

/-- Trace, captured payloads and pending error of a (partial) run. -/
structure RunResult where
  trace : List Ev
  captured : List String
  escaped : Option SErr
deriving DecidableEq

/-- The `try` block of `main`: the trace of completed steps, the capture
sequence accumulated by the response observer, and the error that aborted
the block (if any). -/
def tryBlock (env : Env) : RunResult :=
  if env.launchOk = false then ⟨[], [], some SErr.launch⟩
  else if env.newPageOk = false then ⟨[Ev.launched], [], some SErr.newPage⟩
  else if env.cdpOk = false then ⟨[Ev.launched, Ev.pageCreated], [], some SErr.cdp⟩
  else
    match prepareOutputDirectory env.dir with
    | Except.error e =>
      ⟨[Ev.launched, Ev.pageCreated, Ev.cdpEnabled], [], some (SErr.prepare e)⟩
    | Except.ok _ =>
      if env.gotoOk = false then
        ⟨[Ev.launched, Ev.pageCreated, Ev.cdpEnabled, Ev.prepared], [], some SErr.goto⟩
      else
        match (writeFiles env.writeFail env.ts 0
            (env.events.foldl (fun rs ev => onResponse CONFIG.apiEndpoint rs ev) [])).2 with
        | some f =>
          ⟨[Ev.launched, Ev.pageCreated, Ev.cdpEnabled, Ev.prepared, Ev.navigated],
            env.events.foldl (fun rs ev => onResponse CONFIG.apiEndpoint rs ev) [],
            some (SErr.save f)⟩
        | none =>
          ⟨[Ev.launched, Ev.pageCreated, Ev.cdpEnabled, Ev.prepared, Ev.navigated, Ev.saved],
            env.events.foldl (fun rs ev => onResponse CONFIG.apiEndpoint rs ev) [], none⟩

/-- `main`: `try` block, then `catch` (logs and swallows the error), then
`finally` (closes the browser when one was launched; a failing close is the
only error that escapes `main`). -/
def mainRun (env : Env) : RunResult :=
  let r := tryBlock env
  let tr := r.trace ++ (match r.escaped with
    | some _ => [Ev.errorLogged]
    | none => [])
  if env.launchOk then
    if env.closeOk then ⟨tr ++ [Ev.closeInvoked], r.captured, none⟩
    else ⟨tr ++ [Ev.closeInvoked], r.captured, some SErr.close⟩
  else ⟨tr, r.captured, none⟩

/-- Full process trace: `main().catch` logs any error escaping `main`. -/
def processTrace (env : Env) : List Ev :=
  (mainRun env).trace ++ (match (mainRun env).escaped with
    | some _ => [Ev.unhandledLogged]
    | none => [])

/-- Process exit status: `process.exit(1)` in `main().catch` when an error
escapes `main`, implicit exit 0 otherwise. -/
def exitCode (env : Env) : Nat :=
  match (mainRun env).escaped with
  | some _ => 1
  | none => 0

/-- A run in which everything succeeds except navigation. -/
def envNavFail : Env :=
  { launchOk := true, newPageOk := true, cdpOk := true, dir := ⟨false, []⟩, events := []
    gotoOk := false, writeFail := fun _ => false, ts := 0, closeOk := true }

/-- A fully successful run over an empty, absent output directory. -/
def envAllOk : Env :=
  { launchOk := true, newPageOk := true, cdpOk := true, dir := ⟨false, []⟩, events := []
    gotoOk := true, writeFail := fun _ => false, ts := 0, closeOk := true }

/-! ## Theorems -/

/-- Helper: a gap-respecting request stream keeps cancelling the pending
check, and the final check fires exactly `timeout` after the last request. -/
theorem idleLoop_gapsOK (timeout : Nat) :
    ∀ (rs : List Nat) (prev fuel : Nat), rs.length + 1 ≤ fuel →
      gapsOK timeout prev rs = true →
      idleLoop timeout fuel prev (some (prev + timeout)) rs = [rs.getLastD prev + timeout] := by
  intro rs
  induction rs with
  | nil =>
    intro prev fuel hf hg
    obtain ⟨f, rfl⟩ : ∃ f, fuel = f + 1 := ⟨fuel - 1, by omega⟩
    have h : timeout ≤ prev + timeout - prev := by omega
    simp [idleLoop, checkIdle, if_pos h]
  | cons r rs ih =>
    intro prev fuel hf hg
    obtain ⟨f, rfl⟩ : ∃ f, fuel = f + 1 := ⟨fuel - 1, by omega⟩
    simp only [gapsOK, Bool.and_eq_true, decide_eq_true_eq] at hg
    obtain ⟨⟨h1, h2⟩, h3⟩ := hg
    have hbr : ¬ (prev + timeout ≤ r) := by omega
    simp only [idleLoop, if_neg hbr]
    rw [ih r f (by simp at hf ⊢; omega) h3]
    cases rs with
    | nil => simp
    | cons a as =>
      cases hx : (a :: as).getLast? with
      | none => simp at hx
      | some x => simp [hx]

/-- C2 (amended): when the idle check fires with elapsed time strictly less
than `timeoutMs`, it re-arms the next check with the full `timeoutMs` delay
(not the remaining time) and does not signal idle. -/
theorem checkIdle_rearm_full_timeout (timeout now lastRequestTime : Nat)
    (h : now - lastRequestTime < timeout) :
    checkIdle timeout now lastRequestTime = CheckAction.rearm timeout ∧
    checkIdle timeout now lastRequestTime ≠ CheckAction.signalIdle := by
  unfold checkIdle
  rw [if_neg (by omega)]
  exact ⟨rfl, by simp⟩

theorem checkIdle_rearm_full_timeout_witness :
    3 - 0 < 10 ∧ checkIdle 10 3 0 = CheckAction.rearm 10 :=
  ⟨by decide, (checkIdle_rearm_full_timeout 10 3 0 (by decide)).1⟩

/-- C2 counterexample: with `timeoutMs = 10`, `lastActivityTimestamp = 0`
and the check firing at time 3 (elapsed 3 < 10), the code re-arms with
delay 10, not with the remaining time `10 - 3 = 7`. -/
theorem checkIdle_not_remaining_time :
    checkIdle 10 3 0 = CheckAction.rearm 10 ∧
    CheckAction.rearm 10 ≠ CheckAction.rearm (10 - (3 - 0)) := by
  exact ⟨by decide, by decide⟩

/-- C7: if no request is ever observed, the single initial check fires at
`t0 + timeout` and immediately signals idle. -/
theorem waitForNetworkIdle_no_requests (timeout t0 : Nat) :
    waitForNetworkIdle timeout t0 [] = [t0 + timeout] := by
  have h : timeout ≤ t0 + timeout - t0 := by omega
  simp [waitForNetworkIdle, idleLoop, checkIdle, if_pos h]

/-- C3 (amended): for every request stream whose first call arrives within
`timeout` of the detector's start and whose inter-call gaps are strictly
less than `timeout`, `resolve()` is called exactly once, exactly at the time
of the last request plus `timeout` (hence never earlier). -/
theorem idle_signal_once_at_last_plus_timeout (timeout t0 : Nat) (reqs : List Nat)
    (hg : gapsOK timeout t0 reqs = true) :
    waitForNetworkIdle timeout t0 reqs = [reqs.getLastD t0 + timeout] :=
  idleLoop_gapsOK timeout reqs t0 (2 * reqs.length + 2) (by omega) hg

theorem idle_signal_once_at_last_plus_timeout_witness :
    gapsOK 10 0 [3, 7, 12] = true ∧ waitForNetworkIdle 10 0 [3, 7, 12] = [22] := by
  refine ⟨by decide, ?_⟩
  rw [idle_signal_once_at_last_plus_timeout 10 0 [3, 7, 12] (by decide)]
  rfl

/-- C3 counterexample: with `timeout = 10`, detector started at time 0 and a
single `onRequest` call at time 11 (so every inter-call gap vacuously
satisfies the claim's hypothesis), `resolve()` is first called at time 10,
strictly before the last request plus the timeout (`11 + 10 = 21`). -/
theorem idle_signal_early_when_first_request_late :
    waitForNetworkIdle 10 0 [11] = [10, 21] ∧
    (waitForNetworkIdle 10 0 [11]).head? = some 10 ∧ 10 < 11 + 10 := by
  exact ⟨rfl, rfl, by decide⟩

/-- Helper: the timer-store invariant holds at detector start. -/
theorem timerInv_start (timeout t0 : Nat) : TimerInv (startDetector timeout t0) :=
  Or.inr ⟨t0 + timeout, rfl⟩

/-- Helper: every detector step preserves the timer-store invariant. -/
theorem timerInv_step {timeout : Nat} {s s' : DetectorState}
    (hstep : DetStep timeout s s') (hinv : TimerInv s) : TimerInv s' := by
  cases hstep with
  | request now s =>
    right
    refine ⟨now + timeout, ?_⟩
    rcases hinv with hp | ⟨t, hp⟩ <;>
      simp [onRequestStep, setTimeoutFn, clearTimeoutFn, hp, List.filter]
  | fire hid now s hmem =>
    rcases hinv with hp | ⟨t, hp⟩
    · rw [hp] at hmem
      simp at hmem
    · rw [hp] at hmem
      simp only [List.mem_singleton, Prod.mk.injEq] at hmem
      obtain ⟨rfl, rfl⟩ := hmem
      unfold fireStep
      rcases hck : checkIdle timeout now s.lastRequestTime with _ | d
      · left
        simp [hp, clearTimeoutFn, List.filter]
      · right
        refine ⟨now + d, ?_⟩
        simp [hp, clearTimeoutFn, setTimeoutFn, List.filter]

/-- Helper: the timer-store invariant holds in every reachable state. -/
theorem timerInv_reachable (timeout t0 : Nat) (s : DetectorState)
    (hr : DetReachable timeout t0 s) : TimerInv s := by
  induction hr with
  | refl => exact timerInv_start timeout t0
  | tail hab hstep ih => exact timerInv_step hstep ih

/-- C9: in every state the detector can reach, at most one idle check is
pending in the event loop: every re-arm (in `onRequest` or in a premature
`checkIdle` fire) replaces the previously scheduled check. -/
theorem pending_checks_at_most_one (timeout t0 : Nat) (s : DetectorState)
    (hr : DetReachable timeout t0 s) : s.pending.length ≤ 1 := by
  rcases timerInv_reachable timeout t0 s hr with h | ⟨t, h⟩ <;> simp [h]

theorem pending_checks_at_most_one_witness :
    (onRequestStep 10 4 (startDetector 10 0)).pending.length ≤ 1 :=
  pending_checks_at_most_one 10 0 (onRequestStep 10 4 (startDetector 10 0))
    (Relation.ReflTransGen.tail Relation.ReflTransGen.refl
      (DetStep.request 4 (startDetector 10 0)))

/-- Helper: `Nat.digitChar` is injective on decimal digits. -/
theorem digitChar_inj_lt : ∀ a, a < 10 → ∀ b, b < 10 → Nat.digitChar a = Nat.digitChar b → a = b := by
  decide

/-- Helper: mapping `Nat.digitChar` over decimal digit lists is injective. -/
theorem map_digitChar_inj : ∀ (l₁ l₂ : List Nat), (∀ d ∈ l₁, d < 10) → (∀ d ∈ l₂, d < 10) →
    l₁.map Nat.digitChar = l₂.map Nat.digitChar → l₁ = l₂ := by
  intro l₁
  induction l₁ with
  | nil =>
    intro l₂ _ _ h
    cases l₂ with
    | nil => rfl
    | cons b bs => simp at h
  | cons a as ih =>
    intro l₂ h1 h2 h
    cases l₂ with
    | nil => simp at h
    | cons b bs =>
      simp only [List.map_cons, List.cons.injEq] at h
      have hab := digitChar_inj_lt a (h1 a (by simp)) b (h2 b (by simp)) h.1
      subst hab
      rw [ih bs (fun d hd => h1 d (by simp [hd])) (fun d hd => h2 d (by simp [hd])) h.2]

/-- Helper: every digit of `Nat.digits 10 n` is a decimal digit. -/
theorem digits_ten_lt (n : Nat) : ∀ d ∈ Nat.digits 10 n, d < 10 :=
  fun _ hd => Nat.digits_lt_base (by norm_num) hd

/-- Helper: decimal rendering is injective. -/
theorem decRepr_injective : Function.Injective decRepr := by
  intro n m h
  unfold decRepr at h
  by_cases hn : n = 0 <;> by_cases hm : m = 0
  · omega
  · exfalso
    rw [if_pos hn, if_neg hm] at h
    have h' := congrArg String.toList h
    rw [List.toList_asString] at h'
    have h2 : (Nat.digits 10 m).map Nat.digitChar = ['0'] := by
      have h2r := congrArg List.reverse h'
      simp at h2r
      exact h2r.symm
    have h3 : Nat.digits 10 m = [0] :=
      map_digitChar_inj (Nat.digits 10 m) [0] (digits_ten_lt m) (by simp) (by simpa using h2)
    have h4 := Nat.ofDigits_digits 10 m
    rw [h3] at h4
    simp [Nat.ofDigits] at h4
    omega
  · exfalso
    rw [if_neg hn, if_pos hm] at h
    have h' := congrArg String.toList h
    rw [List.toList_asString] at h'
    have h2 : (Nat.digits 10 n).map Nat.digitChar = ['0'] := by
      have h2r := congrArg List.reverse h'
      simp at h2r
      exact h2r
    have h3 : Nat.digits 10 n = [0] :=
      map_digitChar_inj (Nat.digits 10 n) [0] (digits_ten_lt n) (by simp) (by simpa using h2)
    have h4 := Nat.ofDigits_digits 10 n
    rw [h3] at h4
    simp [Nat.ofDigits] at h4
    omega
  · rw [if_neg hn, if_neg hm, List.asString_inj] at h
    have h2 := List.reverse_injective h
    have h3 := map_digitChar_inj (Nat.digits 10 n) (Nat.digits 10 m)
      (digits_ten_lt n) (digits_ten_lt m) h2
    have h4 := Nat.ofDigits_digits 10 n
    rw [h3, Nat.ofDigits_digits 10 m] at h4
    omega

/-- Helper: for a fixed timestamp, distinct indices give distinct file names. -/
theorem fileName_inj (ts : Nat) : Function.Injective (fun i => fileName i ts) := by
  intro i j h
  simp only at h
  unfold fileName at h
  have h' := congrArg String.data h
  simp only [String.data_append] at h'
  have h1 := List.append_cancel_right (List.append_cancel_right (List.append_cancel_right h'))
  have h2 : (decRepr i).data = (decRepr j).data := List.append_cancel_left h1
  exact decRepr_injective (String.toList_inj.mp h2)

/-- Helper: a failure-free run of the write loop writes one file per
payload, with consecutive indices and the payloads verbatim. -/
theorem writeFiles_ok (writeFail : Nat → Bool) (ts : Nat) :
    ∀ (rs : List String) (i : Nat), (∀ k, k < rs.length → writeFail (i + k) = false) →
      (writeFiles writeFail ts i rs).1.map Prod.fst
        = (List.range rs.length).map (fun k => fileName (i + k) ts) ∧
      (writeFiles writeFail ts i rs).1.map Prod.snd = rs ∧
      (writeFiles writeFail ts i rs).2 = none := by
  intro rs
  induction rs with
  | nil => intro i h; simp [writeFiles]
  | cons r rs ih =>
    intro i h
    have h0 : writeFail i = false := by have := h 0 (by simp); simpa using this
    have hrec := ih (i + 1) (fun k hk => by
      have hh := h (k + 1) (by simp; omega)
      have e : i + 1 + k = i + (k + 1) := by omega
      rw [e]; exact hh)
    simp only [writeFiles, h0, Bool.false_eq_true, if_neg (by simp : ¬False)]
    refine ⟨?_, ?_, ?_⟩
    · simp only [List.map_cons, List.length_cons, List.range_succ_eq_map, List.map_map, hrec.1,
        Nat.add_zero]
      congr 1
      apply List.map_congr_left
      intro a ha
      simp only [Function.comp]
      congr 1
      omega
    · simp [hrec.2.1]
    · simp [hrec.2.2]

/-- Helper: the write loop aborts at the first failing write, having written
exactly the earlier files, and surfaces the failing file's name. -/
theorem writeFiles_fail (writeFail : Nat → Bool) (ts : Nat) :
    ∀ (rs : List String) (i j : Nat), j < rs.length → writeFail (i + j) = true →
      (∀ k, k < j → writeFail (i + k) = false) →
      (writeFiles writeFail ts i rs).2 = some (fileName (i + j) ts) ∧
      (writeFiles writeFail ts i rs).1.map Prod.fst
        = (List.range j).map (fun k => fileName (i + k) ts) := by
  intro rs
  induction rs with
  | nil => intro i j hj _ _; simp at hj
  | cons r rs ih =>
    intro i j hj hfail hbefore
    cases j with
    | zero =>
      have h0 : writeFail i = true := by simpa using hfail
      simp [writeFiles, h0]
    | succ j =>
      have h0 : writeFail i = false := by have := hbefore 0 (by omega); simpa using this
      have hrec := ih (i + 1) j (by simp only [List.length_cons] at hj; omega)
        (by
          have e : i + 1 + j = i + (j + 1) := by omega
          rw [e]; exact hfail)
        (fun k hk => by
          have hh := hbefore (k + 1) (by omega)
          have e : i + 1 + k = i + (k + 1) := by omega
          rw [e]; exact hh)
      simp only [writeFiles, h0, Bool.false_eq_true, if_neg (by simp : ¬False)]
      constructor
      · rw [show i + (j + 1) = i + 1 + j by omega]
        exact hrec.1
      · simp only [List.map_cons, List.range_succ_eq_map, List.map_map, hrec.2, Nat.add_zero]
        congr 1
        apply List.map_congr_left
        intro a ha
        simp only [Function.comp]
        congr 1
        omega

/-- C4 (amended): the response observer appends to the capture sequence if
and only if the request URL contains the endpoint substring and the body
was read successfully and its trimmed text is non-empty; an appended body
is appended verbatim at the end, and a failure-free save writes every
captured payload verbatim as file contents. -/
theorem onResponse_append_iff (apiEndpoint : String) (responses : List String) (ev : ResponseEvent) :
    (onResponse apiEndpoint responses ev ≠ responses ↔
      ∃ t, ev.body = some t ∧ includes ev.url apiEndpoint = true ∧ jsTrim t ≠ "") ∧
    (∀ t, ev.body = some t → includes ev.url apiEndpoint = true → jsTrim t ≠ "" →
      onResponse apiEndpoint responses ev = responses ++ [t]) ∧
    (∀ ts, (writeFiles (fun _ => false) ts 0 responses).1.map Prod.snd = responses) := by
  refine ⟨⟨?_, ?_⟩, ?_, ?_⟩
  · intro hne
    by_cases hinc : includes ev.url apiEndpoint = true
    · cases hb : ev.body with
      | none => exact absurd (by simp [onResponse, hinc, hb]) hne
      | some t =>
        by_cases ht : jsTrim t ≠ ""
        · exact ⟨t, rfl, hinc, ht⟩

        · exact absurd (by simp [onResponse, hinc, hb, ht]) hne
    · exact absurd (by simp [onResponse, hinc]) hne
  · rintro ⟨t, hb, hinc, ht⟩
    have heq : onResponse apiEndpoint responses ev = responses ++ [t] := by
      simp [onResponse, hinc, hb, ht]
    rw [heq]
    intro hcontra
    have hlen := congrArg List.length hcontra
    simp at hlen
  · intro t hb hinc ht
    simp [onResponse, hinc, hb, ht]
  · intro ts
    exact (writeFiles_ok (fun _ => false) ts responses 0 (fun k _ => rfl)).2.1

theorem onResponse_append_iff_witness :
    includes ("https://x/map/search?q=1") ("map/search") = true ∧
    onResponse ("map/search") [] ⟨"https://x/map/search?q=1", some ("body")⟩ = [] ++ ["body"] :=
  ⟨by decide,
    (onResponse_append_iff ("map/search") [] ⟨"https://x/map/search?q=1", some ("body")⟩).2.1
      ("body") rfl (by decide) (by decide)⟩

/-- C4 counterexample: the request URL contains the endpoint substring and
the successfully read body " " is non-empty, yet the observer does not
append it (the code tests the trimmed body for truthiness, so an all-
whitespace body is dropped). -/
theorem onResponse_skips_whitespace_body :
    onResponse ("api") [] ⟨"api", some (" ")⟩ = [] ∧ (" " : String) ≠ "" := by
  exact ⟨by decide, by decide⟩

/-- C5: one save call over K payloads writes exactly K distinct files, all
sharing the one session timestamp, named `response_<index>_<timestamp>.json`
with indices 0..K-1 in capture order and contents verbatim; and on the
first failing write the loop aborts (exactly the earlier files exist) and
the error is surfaced. -/
theorem saveResponses_files_spec (d : Dir) (writeFail : Nat → Bool) (ts : Nat)
    (responses : List String) :
    ((∀ k, k < responses.length → writeFail k = false) →
      (saveResponses d writeFail ts responses).2.2 = none ∧
      (saveResponses d writeFail ts responses).2.1.map Prod.fst
        = (List.range responses.length).map (fun i => fileName i ts) ∧
      (saveResponses d writeFail ts responses).2.1.map Prod.snd = responses ∧
      ((saveResponses d writeFail ts responses).2.1.map Prod.fst).Nodup) ∧
    (∀ j, j < responses.length → writeFail j = true → (∀ k, k < j → writeFail k = false) →
      (saveResponses d writeFail ts responses).2.2 = some (fileName j ts) ∧
      (saveResponses d writeFail ts responses).2.1.map Prod.fst
        = (List.range j).map (fun i => fileName i ts)) := by
  constructor
  · intro hok
    have h := writeFiles_ok writeFail ts responses 0 (fun k hk => by simpa using hok k hk)
    have hfst : (writeFiles writeFail ts 0 responses).1.map Prod.fst
        = (List.range responses.length).map (fun i => fileName i ts) := by
      rw [h.1]
      apply List.map_congr_left
      intro a ha
      simp
    refine ⟨h.2.2, hfst, h.2.1, ?_⟩
    have hfst' : (saveResponses d writeFail ts responses).2.1.map Prod.fst
        = (List.range responses.length).map (fun i => fileName i ts) := hfst
    rw [hfst']
    exact (List.nodup_range responses.length).map (fileName_inj ts)
  · intro j hj hf hbefore
    have h := writeFiles_fail writeFail ts responses 0 j hj (by simpa using hf)
      (fun k hk => by simpa using hbefore k hk)
    refine ⟨by simpa using h.1, ?_⟩
    have h2 : (saveResponses d writeFail ts responses).2.1.map Prod.fst
        = (List.range j).map (fun k => fileName (0 + k) ts) := h.2
    rw [h2]
    apply List.map_congr_left
    intro a ha
    simp

theorem saveResponses_files_spec_witness :
    (saveResponses ⟨true, []⟩ (fun _ => false) 7 ["a", "b"]).2.2 = none ∧
    (saveResponses ⟨true, []⟩ (fun _ => false) 7 ["a", "b"]).2.1.map Prod.snd = ["a", "b"] ∧
    (saveResponses ⟨true, []⟩ (fun i => decide (i = 1)) 7 ["a", "b", "c"]).2.2
      = some (fileName 1 7) := by
  have h1 := (saveResponses_files_spec ⟨true, []⟩ (fun _ => false) 7 ["a", "b"]).1
    (fun k _ => rfl)
  have h2 := (saveResponses_files_spec ⟨true, []⟩ (fun i => decide (i = 1)) 7 ["a", "b", "c"]).2
    1 (by decide) (by decide) (by decide)
  exact ⟨h1.1, h1.2.2.1, h2.1⟩

/-- Helper: deleting a list of plain files succeeds. -/
theorem deleteEntries_ok (es : List FileEntry) (h : ∀ e ∈ es, e.isDir = false) :
    deleteEntries es = Except.ok () := by
  induction es with
  | nil => rfl
  | cons e es ih =>
    have he := h e (by simp)
    simp [deleteEntries, he, ih (fun x hx => h x (by simp [hx]))]

/-- C6: `prepare` on a directory of plain files empties it (in particular
it does not fail on an already empty directory), leaves a non-existent
directory uncreated, and directory creation happens in `saveResponses`. -/
theorem prepareOutputDirectory_spec (d : Dir) (h : ∀ e ∈ d.entries, e.isDir = false) :
    (d.present = true → prepareOutputDirectory d = Except.ok { present := true, entries := [] }) ∧
    (d.present = false → prepareOutputDirectory d = Except.ok d) ∧
    (∀ writeFail ts rs, ((saveResponses d writeFail ts rs).1).present = true) := by
  refine ⟨?_, ?_, ?_⟩
  · intro hp
    simp [prepareOutputDirectory, hp, deleteEntries_ok d.entries h]
  · intro hp
    simp [prepareOutputDirectory, hp]
  · intro wf ts rs
    by_cases hp : d.present <;> simp [saveResponses, ensureDir, hp]

theorem prepareOutputDirectory_spec_witness :
    (∀ e ∈ (⟨true, [⟨"a.json", false⟩, ⟨"b.json", false⟩]⟩ : Dir).entries, e.isDir = false) ∧
    prepareOutputDirectory ⟨true, [⟨"a.json", false⟩, ⟨"b.json", false⟩]⟩
      = Except.ok ⟨true, []⟩ ∧
    prepareOutputDirectory ⟨false, []⟩ = Except.ok ⟨false, []⟩ :=
  ⟨by decide,
    (prepareOutputDirectory_spec ⟨true, [⟨"a.json", false⟩, ⟨"b.json", false⟩]⟩ (by decide)).1 rfl,
    (prepareOutputDirectory_spec ⟨false, []⟩ (by decide)).2.1 rfl⟩

/-- Helper: a listing with a directory entry makes the deletion loop throw,
and the offending entry is a directory. -/
theorem deleteEntries_error (es : List FileEntry) (h : ∃ e ∈ es, e.isDir = true) :
    ∃ e', deleteEntries es = Except.error e' ∧ e'.isDir = true := by
  induction es with
  | nil => simp at h
  | cons e es ih =>
    by_cases he : e.isDir
    · exact ⟨e, by simp [deleteEntries, he], he⟩
    · obtain ⟨x, hx, hxd⟩ := h
      simp only [List.mem_cons] at hx
      rcases hx with rfl | hx
    
      · exact absurd hxd (by simpa using he)
      · obtain ⟨e', he1, he2⟩ := ih ⟨x, hx, hxd⟩
        exact ⟨e', by simpa [deleteEntries, he] using he1, he2⟩

/-- Helper: if the deletion loop succeeds, every entry was a plain file. -/
theorem deleteEntries_all_plain (es : List FileEntry) (h : ∃ u, deleteEntries es = Except.ok u) :
    ∀ e ∈ es, e.isDir = false := by
  induction es with
  | nil => simp
  | cons e es ih =>
    intro x hx
    by_cases he : e.isDir
    · obtain ⟨u, hu⟩ := h
      rw [show deleteEntries (e :: es) = Except.error e by simp [deleteEntries, he]] at hu
      cases hu
    · simp only [List.mem_cons] at hx
      rcases hx with rfl | hx
      · simpa using he
      · exact ih (by simpa [deleteEntries, he] using h) x hx

/-- C10: an output directory containing a directory entry makes `prepare`
throw (the loop unlinks every listed entry as a plain file), which aborts
the session before the response observer is installed or navigation
happens, so no capture occurs; and `prepare` succeeds on an existing
directory only when every pre-existing entry is a plain file. -/
theorem prepare_fails_on_directory_entry (d : Dir) (hp : d.present = true)
    (hsub : ∃ e ∈ d.entries, e.isDir = true) :
    (∃ e', prepareOutputDirectory d = Except.error e' ∧ e'.isDir = true) ∧
    (∀ env : Env, env.dir = d → env.launchOk = true → env.newPageOk = true →
      env.cdpOk = true →
      (tryBlock env).captured = [] ∧ Ev.navigated ∉ (tryBlock env).trace ∧
      ∃ e', (tryBlock env).escaped = some (SErr.prepare e')) ∧
    (∀ d₂ : Dir, d₂.present = true → (∃ r, prepareOutputDirectory d₂ = Except.ok r) →
      ∀ e ∈ d₂.entries, e.isDir = false) := by
  obtain ⟨e', herr, hdir⟩ : ∃ e', prepareOutputDirectory d = Except.error e' ∧ e'.isDir = true := by
    obtain ⟨e', h1, h2⟩ := deleteEntries_error d.entries hsub
    exact ⟨e', by simp [prepareOutputDirectory, hp, h1], h2⟩
  refine ⟨⟨e', herr, hdir⟩, ?_, ?_⟩
  · intro env hd hl hn hc
    simp only [tryBlock, hl, hn, hc, hd, herr, Bool.true_eq_false, if_neg (by simp : ¬False)]
    refine ⟨by simp, by simp, e', by simp⟩
  · intro d₂ hp₂ hok
    obtain ⟨r, hr⟩ := hok
    rw [prepareOutputDirectory, if_pos hp₂] at hr
    apply deleteEntries_all_plain
    rcases hdel : deleteEntries d₂.entries with e₂ | u
    · simp [hdel] at hr
    · exact ⟨u, rfl⟩

theorem prepare_fails_on_directory_entry_witness :
    (⟨true, [⟨"sub", true⟩]⟩ : Dir).present = true ∧
    (∃ e', prepareOutputDirectory ⟨true, [⟨"sub", true⟩]⟩ = Except.error e' ∧ e'.isDir = true) :=
  ⟨rfl, (prepare_fails_on_directory_entry ⟨true, [⟨"sub", true⟩]⟩ rfl
    ⟨⟨"sub", true⟩, by decide, rfl⟩).1⟩

/-- C1 (amended): the session's `catch` block swallows every error raised
inside `main`'s `try` block (launch, page creation, instrumentation,
directory-prepare, navigation and save failures are only logged), so the
process exits non-zero exactly when a browser was launched and
`browser.close()` fails; in particular a run whose `try` block succeeds and
whose close succeeds exits with code 0. -/
theorem exitCode_iff_close_failure (env : Env) :
    (exitCode env = 1 ↔ (env.launchOk = true ∧ env.closeOk = false)) ∧
    ((tryBlock env).escaped = none → env.closeOk = true → exitCode env = 0) := by
  constructor
  · unfold exitCode mainRun
    rcases hl : env.launchOk <;> rcases hc : env.closeOk <;> simp [hl, hc]
  · intro _ hc
    unfold exitCode mainRun
    rcases hl : env.launchOk <;> simp [hl, hc]

theorem exitCode_iff_close_failure_witness :
    (tryBlock envAllOk).escaped = none ∧ envAllOk.closeOk = true ∧ exitCode envAllOk = 0 :=
  ⟨rfl, rfl, (exitCode_iff_close_failure envAllOk).2 rfl rfl⟩

/-- C1 counterexample: a run in which navigation fails (all other
operations succeed): the error aborts the session and is logged, but the
process exits with code 0, not a non-zero status. -/
theorem exit_zero_despite_goto_failure :
    (tryBlock envNavFail).escaped = some SErr.goto ∧ exitCode envNavFail = 0 := by
  exact ⟨rfl, rfl⟩

/-- Helper: the `try` block itself never invokes `browser.close()`. -/
theorem closeInvoked_not_in_tryBlock (env : Env) : Ev.closeInvoked ∉ (tryBlock env).trace := by
  unfold tryBlock
  repeat' split
  all_goals simp

/-- C8: once a browser has been launched, every exit path of the session
invokes `browser.close()` exactly once; any error that escapes `main`
(necessarily a close failure) reaches the top-level handler only after the
close invocation. -/
theorem browser_close_exactly_once (env : Env) (h : env.launchOk = true) :
    (processTrace env).count Ev.closeInvoked = 1 ∧
    ((mainRun env).escaped.isSome →
      List.Sublist [Ev.closeInvoked, Ev.unhandledLogged] (processTrace env)) := by
  have h0 : (tryBlock env).trace.count Ev.closeInvoked = 0 :=
    List.count_eq_zero_of_not_mem (closeInvoked_not_in_tryBlock env)
  have h1 : ∀ o : Option SErr,
      (match o with
        | some _ => [Ev.errorLogged]
        | none => ([] : List Ev)).count Ev.closeInvoked = 0 := by
    intro o
    cases o <;> simp
  constructor
  · unfold processTrace mainRun
    rcases hc : env.closeOk <;> simp [h, hc, List.count_append, h0, h1]
  · intro hesc
    unfold mainRun at hesc
    unfold processTrace mainRun
    rcases hc : env.closeOk
    · simp only [h, hc, if_pos rfl, Bool.false_eq_true, if_neg (by simp : ¬False)]
      rw [show ([Ev.closeInvoked, Ev.unhandledLogged] : List Ev)
          = [Ev.closeInvoked] ++ [Ev.unhandledLogged] from rfl]
      exact List.Sublist.append (List.sublist_append_right _ _) (List.Sublist.refl _)
    · simp [h, hc] at hesc

theorem browser_close_exactly_once_witness :
    envAllOk.launchOk = true ∧ (processTrace envAllOk).count Ev.closeInvoked = 1 :=
  ⟨rfl, (browser_close_exactly_once envAllOk rfl).1⟩
